import Mathlib

/-!
Shallow embedding of the two MCP search servers (`mcp_fofa_server.go` and the
Hunter server source) and proofs of the specification's claims about them.

Modelling conventions:
* Go `int` is modelled as `Int` (tool arguments and response fields arrive as
  JSON numbers and may be negative).
* JSON numbers are modelled as `Int`: Go decodes them into `float64`, and every
  value the claims touch is integer-valued; floating-point formatting is out of
  scope.
* A raw HTTP body is modelled as `Option Json`: `some j` is a body whose bytes
  parse as the JSON value `j`, `none` is a body that is not valid JSON (so
  `encoding/json.Unmarshal` fails with a syntax error).
* Strings are modelled by Lean `String`; where Go converts a string to `[]byte`
  (base64 encoding) we use the UTF-8 bytes, as Go does.
-/

/-- JSON values as decoded by Go's `encoding/json` into `interface{}`:
`null`, booleans, numbers (integer-valued, see module comment), strings,
arrays, and objects (field lists; Go's map semantics — last duplicate key
wins — are applied at lookup and rendering time). -/
inductive Json where
  | null : Json
  | bool (b : Bool) : Json
  | num (n : Int) : Json
  | str (s : String) : Json
  | arr (xs : List Json) : Json
  | obj (kvs : List (String × Json)) : Json

/-- Whether a decoded JSON value is an object, i.e. whether the Go type
assertion `item.(map[string]interface{})` on it succeeds. -/
def Json.isObj : Json → Bool
  | .obj _ => true
  | _ => false

/-- ASCII lowercasing of one character. -/
def lowerChar (c : Char) : Char :=
  if 'A' ≤ c ∧ c ≤ 'Z' then Char.ofNat (c.toNat + 32) else c

/-- ASCII lowercasing of a key. -/
def lowerKey (s : String) : String := ⟨s.data.map lowerChar⟩

/-- Field lookup used by `encoding/json` when filling a struct whose field tags
are all lower-case ASCII: the last JSON entry whose key matches the tag
case-insensitively wins (Go assigns object entries in order, so the last
matching entry overwrites the earlier ones; the case-insensitive match is
modelled by ASCII lowercasing, which agrees with Go's fold on these ASCII
tags). -/
def lookupField (kvs : List (String × Json)) (name : String) : Option Json :=
  (kvs.reverse.find? fun p => lowerKey p.1 == name).map (·.2)

/-- Lookup in a Go `map[string]interface{}` built from a JSON object: exact
key match, last duplicate wins. -/
def mapLookup (kvs : List (String × Json)) (k : String) : Option Json :=
  (kvs.reverse.find? fun p => p.1 == k).map (·.2)

/-- Go unmarshalling of a JSON value into a `bool` field: `null` leaves the
zero value, any non-boolean is a type error. -/
def decodeGoBool : Json → Option Bool
  | .bool b => some b
  | .null => some false
  | _ => none

/-- Go unmarshalling of a JSON value into a `string` field. -/
def decodeGoString : Json → Option String
  | .str s => some s
  | .null => some ""
  | _ => none

/-- Go unmarshalling of a JSON value into an `int` field. -/
def decodeGoInt : Json → Option Int
  | .num n => some n
  | .null => some 0
  | _ => none

/-- Decode one struct field: a missing field keeps the struct's zero value and
is not an error; a present field uses the given element decoder. -/
def decodeFieldWith (kvs : List (String × Json)) (name : String)
    (dec : Json → Option α) (zero : α) : Option α :=
  match lookupField kvs name with
  | none => some zero
  | some j => dec j

/-- Go unmarshalling into `[]string` (`null` is the nil slice). -/
def decodeGoStringRow : Json → Option (List String)
  | .null => some []
  | .arr xs => xs.mapM decodeGoString
  | _ => none

/-- Go unmarshalling into `[][]string` (the FOFA `results` field). -/
def decodeRows : Json → Option (List (List String))
  | .null => some []
  | .arr xs => xs.mapM decodeGoStringRow
  | _ => none

/-- Go unmarshalling into `[]interface{}` (the Hunter `arr` field): any JSON
array is accepted, its elements kept as decoded JSON values. -/
def decodeGoAnyList : Json → Option (List Json)
  | .null => some []
  | .arr xs => some xs
  | _ => none

/-- FOFA API response struct `SearchResult` of `mcp_fofa_server.go`. -/
structure FofaSearchResult where
  error : Bool
  errmsg : String
  mode : String
  page : Int
  size : Int
  results : List (List String)
deriving DecidableEq

/-- Go `json.Unmarshal` of a decoded JSON value into the FOFA `SearchResult`
struct: top level must be an object (or `null`, which leaves the zero struct);
unknown fields are ignored; a type mismatch on any field is an unmarshal
error. -/
def decodeFofaResult : Json → Option FofaSearchResult
  | .null => some ⟨false, "", "", 0, 0, []⟩
  | .obj kvs => do
      let e ← decodeFieldWith kvs "error" decodeGoBool false
      let em ← decodeFieldWith kvs "errmsg" decodeGoString ""
      let mo ← decodeFieldWith kvs "mode" decodeGoString ""
      let pg ← decodeFieldWith kvs "page" decodeGoInt 0
      let sz ← decodeFieldWith kvs "size" decodeGoInt 0
      let rs ← decodeFieldWith kvs "results" decodeRows []
      some ⟨e, em, mo, pg, sz, rs⟩
  | _ => none

/-- Hunter response struct `ResultData`. -/
structure ResultData where
  total : Int
  time : Int
  arr : List Json
  consumeQuota : String
  restQuota : String

/-- Hunter response struct `SearchResult` (renamed to avoid the clash between
the two Go files' identical struct names); `data` is a `*ResultData`, `none`
standing for the nil pointer. -/
structure HunterSearchResult where
  code : Int
  message : String
  data : Option ResultData

/-- Go unmarshalling into `*ResultData`: JSON `null` (or an absent field) sets
the pointer to nil; an object allocates and fills the struct. -/
def decodePtrResultData : Json → Option (Option ResultData)
  | .null => some none
  | .obj kvs => do
      let t ← decodeFieldWith kvs "total" decodeGoInt 0
      let tm ← decodeFieldWith kvs "time" decodeGoInt 0
      let a ← decodeFieldWith kvs "arr" decodeGoAnyList []
      let cq ← decodeFieldWith kvs "consume_quota" decodeGoString ""
      let rq ← decodeFieldWith kvs "rest_quota" decodeGoString ""
      some (some ⟨t, tm, a, cq, rq⟩)
  | _ => none

/-- Go `json.Unmarshal` into the Hunter `SearchResult` struct. -/
def decodeHunterResult : Json → Option HunterSearchResult
  | .null => some ⟨0, "", none⟩
  | .obj kvs => do
      let c ← decodeFieldWith kvs "code" decodeGoInt 0
      let m ← decodeFieldWith kvs "message" decodeGoString ""
      let d ← decodeFieldWith kvs "data" decodePtrResultData none
      some ⟨c, m, d⟩
  | _ => none

/-- Characters Go's `fmt` treats as verb flags. -/
def isFmtFlag (c : Char) : Bool :=
  c == '+' || c == '-' || c == '#' || c == ' ' || c == '0'

/-- Width part of a verb for a zero-operand `fmt` call: a `*` width consumes a
missing argument and prints `%!(BADWIDTH)`; literal digits are skipped. -/
def fmtSkipWidth (cs : List Char) : String × List Char :=
  match cs with
  | '*' :: t => ("%!(BADWIDTH)", t)
  | _ => ("", cs.dropWhile Char.isDigit)

/-- Precision part of a verb for a zero-operand `fmt` call. -/
def fmtSkipPrec (cs : List Char) : String × List Char :=
  match cs with
  | '.' :: t =>
    match t with
    | '*' :: t2 => ("%!(BADPREC)", t2)
    | _ => ("", t.dropWhile Char.isDigit)
  | _ => ("", cs)

/-- Verb letter of a zero-operand `fmt` call: `%%` prints a percent sign, a
format ending right after `%` prints `%!(NOVERB)`, and any other verb has a
missing operand and prints `%!v(MISSING)`. -/
def fmtFinishVerb (cs : List Char) : String × List Char :=
  match cs with
  | [] => ("%!(NOVERB)", [])
  | '%' :: t => ("%", t)
  | v :: t => ("%!" ++ v.toString ++ "(MISSING)", t)

/-- Processing of one `%` directive by `fmt` with no operands: output text and
remaining format characters. -/
def fmtVerbOut (cs : List Char) : String × List Char :=
  let cs1 := cs.dropWhile isFmtFlag
  let w := fmtSkipWidth cs1
  let p := fmtSkipPrec w.2
  let f := fmtFinishVerb p.2
  (w.1 ++ p.1 ++ f.1, f.2)

/-- Go `fmt.Sprintf` over the characters of a format string, called with zero
operands, as `fmt.Errorf(result.ErrMsg)` / `fmt.Errorf(result.Message)` do.
The recursion is driven by a character budget so that it is structural (and
hence evaluates inside the kernel); each loop iteration consumes at least one
character (`fmtVerbOut_length_le`), so a budget of the format's length never
runs out and the zero-budget branch is unreachable from `sprintfNoOperands`. -/
def sprintfAux : Nat → List Char → String
  | _, [] => ""
  | 0, cs => ⟨cs⟩
  | fuel + 1, '%' :: rest => (fmtVerbOut rest).1 ++ sprintfAux fuel (fmtVerbOut rest).2
  | fuel + 1, c :: rest => c.toString ++ sprintfAux fuel rest

/-- Message produced by `fmt.Errorf(msg)` with no further arguments: `msg` is
interpreted as a format string with zero operands. -/
def sprintfNoOperands (s : String) : String := sprintfAux s.data.length s.data

/-- Insertion of a rendered map entry into a key-sorted list (Go's `fmt`
prints map keys in sorted order). -/
def insertPairSorted (p : String × String) :
    List (String × String) → List (String × String)
  | [] => [p]
  | q :: rest => if q.1 < p.1 then q :: insertPairSorted p rest else p :: q :: rest

/-- Sort rendered map entries by key, as Go's `fmt` does for maps. -/
def sortPairs : List (String × String) → List (String × String)
  | [] => []
  | p :: rest => insertPairSorted p (sortPairs rest)

/-- Collapse duplicate JSON object keys the way building a Go map does: the
last occurrence of a key wins. -/
def dedupLast : List (String × String) → List (String × String)
  | [] => []
  | p :: rest =>
    if rest.any (fun q => q.1 == p.1) then dedupLast rest else p :: dedupLast rest

/-- Assemble the rendered entries of a `map[string]interface{}` as Go's `fmt`
prints them: duplicates collapsed (last wins), sorted by key, `key:value`. -/
def mapEntriesOut (es : List (String × String)) : List String :=
  (sortPairs (dedupLast es)).map fun p => p.1 ++ ":" ++ p.2

mutual

/-- Go `fmt` rendering of a decoded JSON `interface{}` value under verb `%s`
(`sVerb = true`) or `%v` (`sVerb = false`): strings print as themselves under
both verbs; `nil`, booleans and numbers print bare under `%v` and as
`%!s(...)` complaints under `%s` (they have no `String` method); slices and
maps recurse elementwise with the same verb. -/
def goFmt (sVerb : Bool) : Json → String
  | .null => if sVerb then "%!s(<nil>)" else "<nil>"
  | .bool b =>
    let t := if b then "true" else "false"
    if sVerb then "%!s(bool=" ++ t ++ ")" else t
  | .num n =>
    if sVerb then "%!s(float64=" ++ toString n ++ ")" else toString n
  | .str s => s
  | .arr xs => "[" ++ String.intercalate " " (goFmtList sVerb xs) ++ "]"
  | .obj kvs =>
    "map[" ++ String.intercalate " " (mapEntriesOut (goFmtEntries sVerb kvs)) ++ "]"

/-- Elementwise `fmt` rendering of a decoded JSON array. -/
def goFmtList (sVerb : Bool) : List Json → List String
  | [] => []
  | x :: xs => goFmt sVerb x :: goFmtList sVerb xs

/-- Keywise `fmt` rendering of a decoded JSON object's entries. -/
def goFmtEntries (sVerb : Bool) : List (String × Json) → List (String × String)
  | [] => []
  | (k, v) :: rest => (k, goFmt sVerb v) :: goFmtEntries sVerb rest

end

/-- Go `fmt` rendering of a map index result under a verb: a missing key (or a
JSON null value, which Go also stores as a nil interface) is the nil
interface. -/
def goFmtLookup (sVerb : Bool) : Option Json → String
  | none => if sVerb then "%!s(<nil>)" else "<nil>"
  | some j => goFmt sVerb j

/-- FOFA API client struct `FofaClient` (the base URL is fixed by
`NewFofaClient`). -/
structure FofaClient where
  email : String
  key : String
  baseURL : String

/-- Hunter API client struct `HunterClient`. -/
structure HunterClient where
  apiKey : String
  baseURL : String

/-- Tool argument struct `FofaSearchArguments`. -/
structure FofaSearchArguments where
  query : String
  page : Int
  size : Int
  fields : String

/-- Tool argument struct `HunterSearchArguments`. -/
structure HunterSearchArguments where
  query : String
  page : Int
  size : Int
  isWeb : Int
  startTime : String
  endTime : String

/-- Defaulting step of the `fofa_search` tool handler: `Page` becomes 1 when
it is zero and `Size` becomes 50 when it is zero; nothing else changes. -/
def fofaDefault (a : FofaSearchArguments) : FofaSearchArguments :=
  { a with
    page := if a.page = 0 then 1 else a.page
    size := if a.size = 0 then 50 else a.size }

/-- Defaulting step of the `hunter_search` tool handler: `Page` becomes 1,
`Size` becomes 20 and `IsWeb` becomes 1 when each is zero. -/
def hunterDefault (a : HunterSearchArguments) : HunterSearchArguments :=
  { a with
    page := if a.page = 0 then 1 else a.page
    size := if a.size = 0 then 20 else a.size
    isWeb := if a.isWeb = 0 then 1 else a.isWeb }

/-- Standard base64 alphabet (RFC 4648), used by `base64.StdEncoding`. -/
def stdAlphabet : List Char :=
  "ABCDEFGHIJKLMNOPQRSTUVWXYZabcdefghijklmnopqrstuvwxyz0123456789+/".data

/-- URL-safe base64 alphabet (RFC 4648), used by `base64.URLEncoding`. -/
def urlAlphabet : List Char :=
  "ABCDEFGHIJKLMNOPQRSTUVWXYZabcdefghijklmnopqrstuvwxyz0123456789-_".data

/-- Sextet to character, through a base64 alphabet. -/
def b64EncChar (alpha : List Char) (k : Nat) : Char := alpha.getD k '='

/-- Character back to sextet; `none` for characters outside the alphabet. -/
def b64DecChar (alpha : List Char) (c : Char) : Option Nat :=
  alpha.findIdx? (· == c)

/-- Base64 encoding of a byte sequence with padding, as Go's
`Encoding.EncodeToString` produces it: full 3-byte groups become 4 characters,
a 1- or 2-byte remainder is padded with `=`. -/
def b64Encode (alpha : List Char) : List Nat → List Char
  | [] => []
  | [b0] =>
    [b64EncChar alpha (b0 / 4), b64EncChar alpha (b0 % 4 * 16), '=', '=']
  | [b0, b1] =>
    [b64EncChar alpha (b0 / 4), b64EncChar alpha (b0 % 4 * 16 + b1 / 16),
     b64EncChar alpha (b1 % 16 * 4), '=']
  | b0 :: b1 :: b2 :: rest =>
    b64EncChar alpha (b0 / 4) :: b64EncChar alpha (b0 % 4 * 16 + b1 / 16) ::
    b64EncChar alpha (b1 % 16 * 4 + b2 / 64) :: b64EncChar alpha (b2 % 64) ::
    b64Encode alpha rest

/-- Base64 decoding of a character sequence: 4 characters at a time, with the
final group allowed to carry one or two `=` padding characters. -/
def b64Decode (alpha : List Char) : List Char → Option (List Nat)
  | [] => some []
  | c0 :: c1 :: c2 :: c3 :: rest =>
    if rest = [] then do
      let s0 ← b64DecChar alpha c0
      let s1 ← b64DecChar alpha c1
      if c2 = '=' then
        if c3 = '=' then some [s0 * 4 + s1 / 16] else none
      else do
        let s2 ← b64DecChar alpha c2
        if c3 = '=' then some [s0 * 4 + s1 / 16, s1 % 16 * 16 + s2 / 4]
        else do
          let s3 ← b64DecChar alpha c3
          some [s0 * 4 + s1 / 16, s1 % 16 * 16 + s2 / 4, s2 % 4 * 64 + s3]
    else do
      let s0 ← b64DecChar alpha c0
      let s1 ← b64DecChar alpha c1
      let s2 ← b64DecChar alpha c2
      let s3 ← b64DecChar alpha c3
      let tl ← b64Decode alpha rest
      some ([s0 * 4 + s1 / 16, s1 % 16 * 16 + s2 / 4, s2 % 4 * 64 + s3] ++ tl)
  | _ => none

/-- UTF-8 bytes of a string, as Go's `[]byte(s)` conversion yields. -/
def utf8Bytes (s : String) : List Nat := s.toUTF8.toList.map (·.toNat)

/-- Helper function `base64Encode` of `mcp_fofa_server.go`:
`base64.StdEncoding.EncodeToString([]byte(s))`. -/
def base64Encode (s : String) : String := ⟨b64Encode stdAlphabet (utf8Bytes s)⟩

/-- Helper function `base64URLEncode` of the Hunter server:
`base64.URLEncoding.EncodeToString([]byte(s))`. -/
def base64URLEncode (s : String) : String := ⟨b64Encode urlAlphabet (utf8Bytes s)⟩

/-- Query parameters added by `FofaClient.Search`, in source order. Every one
of them is added unconditionally, `fields` included; `url.Values.Encode` then
emits each of these keys into the request URL. -/
def fofaParams (fc : FofaClient) (query : String) (page size : Int)
    (fields : String) : List (String × String) :=
  [("qbase64", base64Encode query), ("email", fc.email), ("key", fc.key),
   ("page", toString page), ("size", toString size), ("fields", fields)]

/-- Query parameters added by `HunterClient.Search`, in source order:
`api-key`, `search`, `page`, `page_size` and `is_web` unconditionally,
`start_time` and `end_time` only when the corresponding string is nonempty. -/
def hunterParams (hc : HunterClient) (query : String) (page size isWeb : Int)
    (startTime endTime : String) : List (String × String) :=
  [("api-key", hc.apiKey), ("search", base64URLEncode query),
   ("page", toString page), ("page_size", toString size),
   ("is_web", toString isWeb)]
  ++ (if startTime = "" then [] else [("start_time", startTime)])
  ++ (if endTime = "" then [] else [("end_time", endTime)])

/-- Keys of a built parameter list (the query-parameter names that appear in
the outbound request URL). -/
def paramKeys (ps : List (String × String)) : List String := ps.map (·.1)

/-- Outcome of the single outbound `http.Get` plus body read: either a
transport-level failure (connection error or body read error, carrying the Go
error's message), or a response with its HTTP status code and a body. The body
is `some j` when its bytes parse as the JSON value `j` and `none` when they are
not valid JSON. -/
inductive HttpOutcome where
  | fail (msg : String) : HttpOutcome
  | resp (status : Nat) (body : Option Json) : HttpOutcome

/-- Errors a tool invocation can return: a transport error (propagated
verbatim from `http.Get`/`ReadAll`), a JSON decode error from
`json.Unmarshal` (its Go-generated syntax message is abstracted away), or a
backend-reported error whose message is built by `fmt.Errorf` from the
backend's message field. -/
inductive GoError where
  | transport (msg : String) : GoError
  | decode : GoError
  | backend (msg : String) : GoError
deriving DecidableEq

/-- Body-consuming part of `FofaClient.Search`: read failure and JSON
unmarshal failure return an error; the decoded struct is returned otherwise.
The HTTP status code is never inspected. -/
def fofaSearch (h : HttpOutcome) : Except GoError FofaSearchResult :=
  match h with
  | .fail m => .error (.transport m)
  | .resp _ none => .error .decode
  | .resp _ (some j) =>
    match decodeFofaResult j with
    | none => .error .decode
    | some r => .ok r

/-- Body-consuming part of `HunterClient.Search`: like the FOFA side, plus the
in-adapter check `result.Code != 200`, which returns
`fmt.Errorf(result.Message)`. The HTTP status code is never inspected. -/
def hunterSearch (h : HttpOutcome) : Except GoError HunterSearchResult :=
  match h with
  | .fail m => .error (.transport m)
  | .resp _ none => .error .decode
  | .resp _ (some j) =>
    match decodeHunterResult j with
    | none => .error .decode
    | some r =>
      if r.code = 200 then .ok r else .error (.backend (sprintfNoOperands r.message))

/-- Text block built by the `fofa_search` handler from a successful result:
a header stating `len(result.Results)` and one line per row, the row's fields
joined by `" | "`. -/
def formatFofa (results : List (List String)) : String :=
  "搜索结果(共" ++ toString results.length ++ "条):\n" ++
    String.join (results.map fun item => String.intercalate " | " item ++ "\n")

/-- The `fofa_search` tool handler after its `Search` call returned, modelled
on the handler body of `mcp_fofa_server.go`: a `Search` error is returned as
the invocation's error; a result with the `Error` flag set becomes
`fmt.Errorf(result.ErrMsg)`; otherwise the formatted text is the response. -/
def fofaRespond (h : HttpOutcome) : Except GoError String :=
  match fofaSearch h with
  | .error e => .error e
  | .ok r =>
    if r.error then .error (.backend (sprintfNoOperands r.errmsg))
    else .ok (formatFofa r.results)

/-- Outcome of the `hunter_search` handler: a response frame (error or text),
or a runtime panic that produces no response at all. -/
inductive HunterOutcome where
  | response (r : Except GoError String) : HunterOutcome
  | panicked : HunterOutcome

/-- Header line of the Hunter handler's output: it prints
`result.Data.Total`, the backend-reported total, not the record count. -/
def hunterHeader (total : Int) : String :=
  "搜索结果(共" ++ toString total ++ "条):\n"

/-- Record line of the Hunter handler's output, for an item whose type
assertion to `map[string]interface{}` succeeded: `ip` and `web_title` are
rendered with `%s` and `port` with `%v`. -/
def hunterLine (kvs : List (String × Json)) : String :=
  "IP: " ++ goFmtLookup true (mapLookup kvs "ip") ++
  " | 端口: " ++ goFmtLookup false (mapLookup kvs "port") ++
  " | 标题: " ++ goFmtLookup true (mapLookup kvs "web_title") ++ "\n"

/-- Record lines of the Hunter handler's output: `none` when some element of
`arr` is not a JSON object, in which case the handler's unchecked type
assertion panics when the loop reaches it. -/
def hunterLines : List Json → Option String
  | [] => some ""
  | .obj kvs :: rest => (hunterLines rest).map (hunterLine kvs ++ ·)
  | _ :: _ => none

/-- Rendering stage of the `hunter_search` handler on a result `Search`
accepted: dereferencing `result.Data` panics when the pointer is nil, the
record loop panics on a non-object item, and otherwise the header plus the
record lines form the response text. -/
def hunterRender (r : HunterSearchResult) : HunterOutcome :=
  match r.data with
  | none => .panicked
  | some d =>
    match hunterLines d.arr with
    | none => .panicked
    | some lines => .response (.ok (hunterHeader d.total ++ lines))

/-- The `hunter_search` tool handler after its `Search` call returned: a
`Search` error is the invocation's error response, a success goes through the
rendering stage. -/
def hunterRespond (h : HttpOutcome) : HunterOutcome :=
  match hunterSearch h with
  | .error e => .response (.error e)
  | .ok r => hunterRender r
theorem dropWhile_length_le (p : Char → Bool) :
    ∀ l : List Char, (l.dropWhile p).length ≤ l.length := by
  intro l
  induction l with
  | nil => simp [List.dropWhile]
  | cons c t ih =>
    simp only [List.dropWhile]
    split
    · exact Nat.le_succ_of_le ih
    · exact Nat.le_refl _

theorem fmtSkipWidth_length_le (cs : List Char) :
    (fmtSkipWidth cs).2.length ≤ cs.length := by
  unfold fmtSkipWidth
  split
  · simp
  · exact dropWhile_length_le _ _

theorem fmtSkipPrec_length_le (cs : List Char) :
    (fmtSkipPrec cs).2.length ≤ cs.length := by
  unfold fmtSkipPrec
  split
  · split
    · simp
      omega
    · simp
      exact Nat.le_succ_of_le (dropWhile_length_le _ _)
  · exact Nat.le_refl _

theorem fmtFinishVerb_length_le (cs : List Char) :
    (fmtFinishVerb cs).2.length ≤ cs.length := by
  unfold fmtFinishVerb
  split
  · simp
  · simp
  · simp

theorem fmtVerbOut_length_le (cs : List Char) :
    (fmtVerbOut cs).2.length ≤ cs.length := by
  unfold fmtVerbOut
  dsimp only
  have h1 := dropWhile_length_le isFmtFlag cs
  have h2 := fmtSkipWidth_length_le (cs.dropWhile isFmtFlag)
  have h3 := fmtSkipPrec_length_le (fmtSkipWidth (cs.dropWhile isFmtFlag)).2
  have h4 := fmtFinishVerb_length_le
    (fmtSkipPrec (fmtSkipWidth (cs.dropWhile isFmtFlag)).2).2
  omega

/-- Claim C1, counterexample: the defaulting step triggers on zero only, not
on every value below 1. With `page = -1` and `size = -1` (both `< 1`) the
defaulting of both tools leaves the arguments untouched, so it does not yield
`page = 1` with the backend size default as the claim states. -/
theorem claim1_counterexample :
    (-1 : Int) < 1 ∧
    fofaDefault ⟨"port=\"80\"", -1, -1, "ip"⟩ = ⟨"port=\"80\"", -1, -1, "ip"⟩ ∧
    hunterDefault ⟨"ip=\"1.1.1.1\"", -1, -1, 1, "", ""⟩ =
      ⟨"ip=\"1.1.1.1\"", -1, -1, 1, "", ""⟩ ∧
    (-1 : Int) ≠ 1 := by
  refine ⟨by decide, rfl, rfl, by decide⟩

/-- Claim C1 (amended): the defaulting step of each tool handler replaces
`page` by 1 exactly when it is zero, and `size` by the backend default (50 for
`fofa_search`, 20 for `hunter_search`) exactly when it is zero, each field
independently; nonzero values, negative ones included, pass through unchanged,
and in particular defaulting is a no-op on `page ≥ 1, size ≥ 1` (for the
Hunter tool, on its `is_web` flag as well). -/
theorem claim1_defaulting (a : FofaSearchArguments) (b : HunterSearchArguments) :
    (1 ≤ a.page ∧ 1 ≤ a.size → fofaDefault a = a) ∧
    (a.page = 0 → (fofaDefault a).page = 1) ∧
    (a.size = 0 → (fofaDefault a).size = 50) ∧
    (a.page ≠ 0 → (fofaDefault a).page = a.page) ∧
    (a.size ≠ 0 → (fofaDefault a).size = a.size) ∧
    (1 ≤ b.page ∧ 1 ≤ b.size ∧ 1 ≤ b.isWeb → hunterDefault b = b) ∧
    (b.page = 0 → (hunterDefault b).page = 1) ∧
    (b.size = 0 → (hunterDefault b).size = 20) ∧
    (b.page ≠ 0 → (hunterDefault b).page = b.page) ∧
    (b.size ≠ 0 → (hunterDefault b).size = b.size) := by
  cases a with
  | mk q p s f =>
    cases b with
    | mk q2 p2 s2 w2 st2 et2 =>
      refine ⟨fun h => ?_, fun h => ?_, fun h => ?_, fun h => ?_, fun h => ?_,
        fun h => ?_, fun h => ?_, fun h => ?_, fun h => ?_, fun h => ?_⟩ <;>
        (try simp_all [fofaDefault, hunterDefault]) <;> omega

/-- Witness for claim C1's theorem at concrete inputs: arguments with
`page ≥ 1` and `size ≥ 1` are left unchanged by both tools' defaulting. -/
theorem claim1_defaulting_witness :
    fofaDefault ⟨"title=\"x\"", 2, 30, "ip,port"⟩ = ⟨"title=\"x\"", 2, 30, "ip,port"⟩ ∧
    hunterDefault ⟨"domain=\"y\"", 3, 10, 2, "", ""⟩ = ⟨"domain=\"y\"", 3, 10, 2, "", ""⟩ :=
  ⟨(claim1_defaulting ⟨"title=\"x\"", 2, 30, "ip,port"⟩ ⟨"domain=\"y\"", 3, 10, 2, "", ""⟩).1
      ⟨by decide, by decide⟩,
   (claim1_defaulting ⟨"title=\"x\"", 2, 30, "ip,port"⟩ ⟨"domain=\"y\"", 3, 10, 2, "", ""⟩).2.2.2.2.2.1
      ⟨by decide, by decide, by decide⟩⟩

/-- Claim C8: the defaulting step of both tool handlers is idempotent —
applying it twice gives the same arguments (hence the same request) as
applying it once. -/
theorem claim8_default_idempotent (a : FofaSearchArguments) (b : HunterSearchArguments) :
    fofaDefault (fofaDefault a) = fofaDefault a ∧
    hunterDefault (hunterDefault b) = hunterDefault b := by
  constructor
  · cases a with
    | mk q p s f =>
      simp only [fofaDefault]
      split_ifs <;> simp_all
  · cases b with
    | mk q p s w st et =>
      simp only [hunterDefault]
      split_ifs <;> simp_all

/-- Claim C2: whenever the backend's failure indicator is set — the FOFA
`error` flag true, or a Hunter `code` different from 200 — the invocation's
outcome is an error payload built from the backend's message field (`errmsg`
resp. `message`), and no formatted record list is produced (the outcome is an
`error`, not an `ok` text). -/
theorem claim2_backend_failure_is_error (st : Nat) (body body' : Json)
    (r : FofaSearchResult) (r' : HunterSearchResult)
    (hf : decodeFofaResult body = some r) (he : r.error = true)
    (hh : decodeHunterResult body' = some r') (hc : r'.code ≠ 200) :
    fofaRespond (.resp st (some body)) =
      .error (.backend (sprintfNoOperands r.errmsg)) ∧
    hunterRespond (.resp st (some body')) =
      .response (.error (.backend (sprintfNoOperands r'.message))) := by
  constructor
  · simp [fofaRespond, fofaSearch, hf, he]
  · simp [hunterRespond, hunterSearch, hh, hc]

/-- Witness for claim C2's theorem: a FOFA body with the error flag set and a
Hunter body with code 40204, both carrying the message `Account Invalid`,
yield exactly that error payload. -/
theorem claim2_backend_failure_witness :
    fofaRespond (.resp 200 (some (.obj [("error", .bool true),
        ("errmsg", .str "Account Invalid")]))) =
      .error (.backend "Account Invalid") ∧
    hunterRespond (.resp 200 (some (.obj [("code", .num 40204),
        ("message", .str "Account Invalid")]))) =
      .response (.error (.backend "Account Invalid")) :=
  claim2_backend_failure_is_error 200
    (.obj [("error", .bool true), ("errmsg", .str "Account Invalid")])
    (.obj [("code", .num 40204), ("message", .str "Account Invalid")])
    ⟨true, "Account Invalid", "", 0, 0, []⟩ ⟨40204, "Account Invalid", none⟩
    rfl rfl rfl (by decide)

/-- Claim C3, counterexample: a response with HTTP status 500 whose body is
well-formed JSON is accepted by both adapters' `Search` — it does not fail
with a decode error, so a non-2xx status does not imply a decode failure. -/
theorem claim3_counterexample :
    fofaSearch (.resp 500 (some (.obj [("error", .bool false),
        ("results", .arr [.arr [.str "1.1.1.1"]])]))) =
      .ok ⟨false, "", "", 0, 0, [["1.1.1.1"]]⟩ ∧
    hunterSearch (.resp 500 (some (.obj [("code", .num 200),
        ("data", .obj [("total", .num 1)])]))) =
      .ok ⟨200, "", some ⟨1, 0, [], "", ""⟩⟩ :=
  ⟨rfl, rfl⟩

/-- Claim C3 (amended): both adapters ignore the HTTP status code entirely —
the outcome of `Search` on a transported response depends only on the body,
and a decode error occurs exactly when the body fails to unmarshal (for any
status, a body that is not valid JSON gives a decode error, and a body that
unmarshals is processed the same under every status). -/
theorem claim3_status_ignored (st st' : Nat) (body : Option Json) :
    fofaSearch (.resp st body) = fofaSearch (.resp st' body) ∧
    hunterSearch (.resp st body) = hunterSearch (.resp st' body) ∧
    fofaSearch (.resp st none) = .error .decode ∧
    hunterSearch (.resp st none) = .error .decode := by
  refine ⟨?_, ?_, rfl, rfl⟩ <;> cases body <;> rfl

/-- Claim C4, code bug: the handlers build the invocation's error with
`fmt.Errorf(msg)`, so the backend's message is used as a format string with no
operands rather than passed through character for character. A backend message
`%d` surfaces as `%!d(MISSING)` on both tools, which differs from `%d`;
messages with no `%` directive are the only ones passed through verbatim. -/
theorem claim4_message_mangled :
    fofaRespond (.resp 200 (some (.obj [("error", .bool true),
        ("errmsg", .str "%d")]))) = .error (.backend "%!d(MISSING)") ∧
    hunterRespond (.resp 200 (some (.obj [("code", .num 401),
        ("message", .str "%d")]))) =
      .response (.error (.backend "%!d(MISSING)")) ∧
    "%!d(MISSING)" ≠ "%d" :=
  ⟨rfl, rfl, by decide⟩

/-- Claim C5, counterexample: the Hunter handler's header prints the
backend-reported `data.total`, not the record count. A successful response
with an empty record array but `total = 3` renders a header stating count 3,
not count 0 as the claim requires. -/
theorem claim5_counterexample :
    hunterRender ⟨200, "", some ⟨3, 0, [], "", ""⟩⟩ =
      .response (.ok "搜索结果(共3条):\n") ∧
    "搜索结果(共3条):\n" ≠ "搜索结果(共0条):\n" :=
  ⟨rfl, by decide⟩

/-- Claim C5 (amended): on an empty record sequence neither handler renders a
record line. The FOFA handler's header states `len(results)`, hence count 0 on
empty records; the Hunter handler's header states the backend-reported
`data.total`, which is 0 only if the backend reported 0 — the output in both
cases is exactly the single header line. -/
theorem claim5_empty_records (code total time : Int) (msg cq rq : String) :
    formatFofa [] = "搜索结果(共0条):\n" ∧
    hunterRender ⟨code, msg, some ⟨total, time, [], cq, rq⟩⟩ =
      .response (.ok (hunterHeader total)) := by
  refine ⟨rfl, ?_⟩
  simp [hunterRender, hunterLines, String.append_empty]

/-- Claim C6, counterexample: `FofaClient.Search` adds the `fields` parameter
unconditionally, so an unset (empty) field selector is sent as an empty value
in the outbound request instead of being omitted. -/
theorem claim6_counterexample :
    ("fields", "") ∈
      fofaParams ⟨"user@example.com", "k123", "https://fofa.info/api/v1"⟩
        "port=\"80\"" 1 50 "" ∧
    "fields" ∈
      paramKeys (fofaParams ⟨"user@example.com", "k123", "https://fofa.info/api/v1"⟩
        "port=\"80\"" 1 50 "") := by
  constructor <;> decide

/-- Claim C6 (amended): the Hunter adapter omits `start_time` and `end_time`
from the outbound parameters exactly when the corresponding argument is the
empty string, and includes them with their given value otherwise; the FOFA
adapter, in contrast, always includes the `fields` parameter, with whatever
value (empty included) the invocation carried. -/
theorem claim6_optional_params (hc : HunterClient) (q : String)
    (page size isWeb : Int) (st et : String) (fc : FofaClient) (q2 : String)
    (p2 s2 : Int) (fl : String) :
    (st = "" → "start_time" ∉ paramKeys (hunterParams hc q page size isWeb st et)) ∧
    (et = "" → "end_time" ∉ paramKeys (hunterParams hc q page size isWeb st et)) ∧
    (st ≠ "" → ("start_time", st) ∈ hunterParams hc q page size isWeb st et) ∧
    (et ≠ "" → ("end_time", et) ∈ hunterParams hc q page size isWeb st et) ∧
    ("fields", fl) ∈ fofaParams fc q2 p2 s2 fl := by
  refine ⟨fun h => ?_, fun h => ?_, fun h => ?_, fun h => ?_, ?_⟩
  · simp [hunterParams, paramKeys, h]
  · simp [hunterParams, paramKeys, h]
  · simp [hunterParams, h]
  · simp [hunterParams, h]
  · simp [fofaParams]

/-- Witness for claim C6's theorem: with `start_time` unset and `end_time`
set, the built Hunter parameters omit `start_time` and carry `end_time`, while
the FOFA parameters carry a set field selector. -/
theorem claim6_optional_params_witness :
    "start_time" ∉
      paramKeys (hunterParams ⟨"key1", "https://hunter.qianxin.com/openApi/search"⟩
        "domain=\"a.com\"" 1 20 1 "" "2024-01-31") ∧
    ("end_time", "2024-01-31") ∈
      hunterParams ⟨"key1", "https://hunter.qianxin.com/openApi/search"⟩
        "domain=\"a.com\"" 1 20 1 "" "2024-01-31" ∧
    ("fields", "host,ip,port") ∈
      fofaParams ⟨"a@b.c", "k9", "https://fofa.info/api/v1"⟩ "app=\"nginx\"" 2 10
        "host,ip,port" :=
  ⟨(claim6_optional_params ⟨"key1", "https://hunter.qianxin.com/openApi/search"⟩
      "domain=\"a.com\"" 1 20 1 "" "2024-01-31"
      ⟨"a@b.c", "k9", "https://fofa.info/api/v1"⟩ "app=\"nginx\"" 2 10
      "host,ip,port").1 rfl,
   (claim6_optional_params ⟨"key1", "https://hunter.qianxin.com/openApi/search"⟩
      "domain=\"a.com\"" 1 20 1 "" "2024-01-31"
      ⟨"a@b.c", "k9", "https://fofa.info/api/v1"⟩ "app=\"nginx\"" 2 10
      "host,ip,port").2.2.2.1 (by decide),
   (claim6_optional_params ⟨"key1", "https://hunter.qianxin.com/openApi/search"⟩
      "domain=\"a.com\"" 1 20 1 "" "2024-01-31"
      ⟨"a@b.c", "k9", "https://fofa.info/api/v1"⟩ "app=\"nginx\"" 2 10
      "host,ip,port").2.2.2.2⟩

theorem hunterLines_none_of_nonobject :
    ∀ arr : List Json, (∃ x ∈ arr, x.isObj = false) → hunterLines arr = none := by
  intro arr
  induction arr with
  | nil => rintro ⟨x, hx, _⟩; cases hx
  | cons hd tl ih =>
    rintro ⟨x, hx, hobj⟩
    rcases List.mem_cons.mp hx with rfl | hmem
    · cases x <;> first | rfl | exact absurd hobj (by simp [Json.isObj])
    · cases hd <;> first | rfl | simp [hunterLines, ih ⟨x, hmem, hobj⟩]

theorem hunterLines_some_of_all_objects :
    ∀ arr : List Json, (∀ x ∈ arr, x.isObj = true) → ∃ s, hunterLines arr = some s := by
  intro arr
  induction arr with
  | nil => exact fun _ => ⟨"", rfl⟩
  | cons hd tl ih =>
    intro h
    obtain ⟨s, hs⟩ := ih fun x hx => h x (List.mem_cons_of_mem _ hx)
    cases hd with
    | obj kvs => exact ⟨hunterLine kvs ++ s, by simp [hunterLines, hs]⟩
    | null => cases h .null (List.mem_cons_self _ _)
    | bool b => cases h (.bool b) (List.mem_cons_self _ _)
    | num n => cases h (.num n) (List.mem_cons_self _ _)
    | str s' => cases h (.str s') (List.mem_cons_self _ _)
    | arr xs => cases h (.arr xs) (List.mem_cons_self _ _)

/-- Claim C9: a well-formed JSON body whose `code` is 200 but whose `data`
field is missing or null is accepted by `HunterClient.Search` as a success
with a nil `Data` pointer, and the handler then panics dereferencing it
instead of producing a response — the invocation yields no error frame. -/
theorem claim9_nil_data_panics (st : Nat) (body : Json) (r : HunterSearchResult)
    (hd : decodeHunterResult body = some r) (hc : r.code = 200)
    (hn : r.data = none) :
    hunterSearch (.resp st (some body)) = .ok r ∧
    hunterRespond (.resp st (some body)) = .panicked := by
  have hs : hunterSearch (.resp st (some body)) = .ok r := by
    simp [hunterSearch, hd, hc]
  exact ⟨hs, by simp [hunterRespond, hs, hunterRender, hn]⟩

/-- Witness for claim C9's theorem: the body `{"code": 200, "message": "ok"}`
decodes with a nil `data` pointer and the handler panics on it. -/
theorem claim9_nil_data_panics_witness :
    hunterRespond (.resp 200 (some (.obj [("code", .num 200),
      ("message", .str "ok")]))) = .panicked :=
  (claim9_nil_data_panics 200 (.obj [("code", .num 200), ("message", .str "ok")])
    ⟨200, "ok", none⟩ rfl rfl rfl).2

/-- Claim C10: if any element of the response's `data.arr` is not a JSON
object, the Hunter handler's unchecked type assertion panics instead of
producing a response; and the rendering stage is total over results whose
records are all objects — for those it always produces a text response. -/
theorem claim10_nonobject_item_panics (r : HunterSearchResult) (d : ResultData)
    (hd : r.data = some d) :
    ((∃ x ∈ d.arr, x.isObj = false) → hunterRender r = .panicked) ∧
    ((∀ x ∈ d.arr, x.isObj = true) →
      ∃ s, hunterRender r = .response (.ok s)) := by
  constructor
  · intro hex
    simp [hunterRender, hd, hunterLines_none_of_nonobject d.arr hex]
  · intro hall
    obtain ⟨s, hs⟩ := hunterLines_some_of_all_objects d.arr hall
    exact ⟨hunterHeader d.total ++ s, by simp [hunterRender, hd, hs]⟩

/-- Witness for claim C10's theorem: a success whose `arr` holds the string
`"oops"` (not an object) makes the handler panic. -/
theorem claim10_nonobject_item_panics_witness :
    hunterRender ⟨200, "ok", some ⟨2, 1, [.str "oops"], "", ""⟩⟩ = .panicked :=
  (claim10_nonobject_item_panics ⟨200, "ok", some ⟨2, 1, [.str "oops"], "", ""⟩⟩
    ⟨2, 1, [.str "oops"], "", ""⟩ rfl).1 ⟨.str "oops", by simp, rfl⟩

theorem b64Encode_ne_nil (alpha : List Char) :
    ∀ bytes : List Nat, bytes ≠ [] → b64Encode alpha bytes ≠ []
  | [], h => absurd rfl h
  | [_], _ => by simp [b64Encode]
  | [_, _], _ => by simp [b64Encode]
  | _ :: _ :: _ :: _, _ => by simp [b64Encode]

theorem b64_decode_encode (alpha : List Char)
    (hdec : ∀ k, k < 64 → b64DecChar alpha (b64EncChar alpha k) = some k)
    (hne : ∀ k, k < 64 → b64EncChar alpha k ≠ '=') :
    ∀ bytes : List Nat, (∀ b ∈ bytes, b < 256) →
      b64Decode alpha (b64Encode alpha bytes) = some bytes
  | [], _ => rfl
  | [b0], h => by
    have hb0 : b0 < 256 := h b0 (by simp)
    have h1 : b0 / 4 < 64 := by omega
    have h2 : b0 % 4 * 16 < 64 := by omega
    simp [b64Encode, b64Decode, hdec _ h1, hdec _ h2]
    omega
  | [b0, b1], h => by
    have hb0 : b0 < 256 := h b0 (by simp)
    have hb1 : b1 < 256 := h b1 (by simp)
    have h1 : b0 / 4 < 64 := by omega
    have h2 : b0 % 4 * 16 + b1 / 16 < 64 := by omega
    have h3 : b1 % 16 * 4 < 64 := by omega
    simp [b64Encode, b64Decode, hdec _ h1, hdec _ h2, hdec _ h3, hne _ h3]
    constructor <;> omega
  | b0 :: b1 :: b2 :: rest, h => by
    have hb0 : b0 < 256 := h b0 (by simp)
    have hb1 : b1 < 256 := h b1 (by simp)
    have hb2 : b2 < 256 := h b2 (by simp)
    have h1 : b0 / 4 < 64 := by omega
    have h2 : b0 % 4 * 16 + b1 / 16 < 64 := by omega
    have h3 : b1 % 16 * 4 + b2 / 64 < 64 := by omega
    have h4 : b2 % 64 < 64 := by omega
    cases rest with
    | nil =>
      simp [b64Encode, b64Decode, hdec _ h1, hdec _ h2, hdec _ h3, hdec _ h4,
        hne _ h3, hne _ h4]
      refine ⟨by omega, by omega, by omega⟩
    | cons c cs =>
      have hnil := b64Encode_ne_nil alpha (c :: cs) (by simp)
      have ih := b64_decode_encode alpha hdec hne (c :: cs)
        (fun b hb => h b (by simp [hb]))
      simp [b64Encode, b64Decode, hnil, hdec _ h1, hdec _ h2, hdec _ h3,
        hdec _ h4, ih]
      refine ⟨by omega, by omega, by omega⟩

theorem stdAlphabet_roundtrip_char :
    ∀ k, k < 64 → b64DecChar stdAlphabet (b64EncChar stdAlphabet k) = some k := by
  decide

theorem stdAlphabet_no_pad : ∀ k, k < 64 → b64EncChar stdAlphabet k ≠ '=' := by
  decide

theorem urlAlphabet_roundtrip_char :
    ∀ k, k < 64 → b64DecChar urlAlphabet (b64EncChar urlAlphabet k) = some k := by
  decide

theorem urlAlphabet_no_pad : ∀ k, k < 64 → b64EncChar urlAlphabet k ≠ '=' := by
  decide

theorem utf8Bytes_lt (s : String) : ∀ b ∈ utf8Bytes s, b < 256 := by
  intro b hb
  simp [utf8Bytes] at hb
  obtain ⟨u, _, rfl⟩ := hb
  exact u.toNat_lt

/-- Claim C7: decoding the encoded query parameter with the backend's own
base64 scheme — the standard alphabet for FOFA's `qbase64` (built by
`base64Encode`), the URL-safe alphabet for Hunter's `search` (built by
`base64URLEncode`) — recovers exactly the UTF-8 bytes of the original raw
query string. -/
theorem claim7_base64_roundtrip (s : String) :
    b64Decode stdAlphabet (base64Encode s).data = some (utf8Bytes s) ∧
    b64Decode urlAlphabet (base64URLEncode s).data = some (utf8Bytes s) :=
  ⟨b64_decode_encode stdAlphabet stdAlphabet_roundtrip_char stdAlphabet_no_pad
      (utf8Bytes s) (utf8Bytes_lt s),
   b64_decode_encode urlAlphabet urlAlphabet_roundtrip_char urlAlphabet_no_pad
      (utf8Bytes s) (utf8Bytes_lt s)⟩
